import Mathlib

/-!
Verification development for the IPTVFlow liveness-verification and
candidate-selection core (src/iptvflow.py).

The Python source is shallowly embedded as executable Lean definitions:

* network and subprocess effects (requests.head / requests.get / ffprobe /
  tesseract, and the wall clock) are supplied by explicit oracle values
  (`ProbeEnv` for one probe call, or a pure `probe : String → Verdict`
  function standing for `is_valid_hls_stream` inside the two-phase tester);
* Python exceptions are modelled with `Except String`;
* Python dicts keyed by strings are modelled as association lists
  (`List (String × _)`), with the dict's key uniqueness expressed as a
  `Nodup` hypothesis on the key list where a theorem needs it; concurrent
  `as_completed` completion order only permutes insertions into those
  keyed dicts, so the embedding serialises it in submission order;
* Python string primitives used by the source (`strip`, `startswith`,
  `endswith`, `in`, `lower`) are re-implemented over `List Char` so that
  every predicate is kernel-evaluable on concrete inputs.

Functions carry the names of the Python functions they embed.  The `..T`
variants additionally return the trace of URLs on which a probe
(`is_valid_hls_stream` resp. `test_single_stream`) is invoked, mirroring
the control flow of the source line by line; the untraced function is the
first projection of the traced one.
-/

/-! ## Python string primitives over `List Char` -/

/-- Python `pat in s` (substring containment). -/
def strContains (s pat : String) : Bool := decide (pat.data <:+: s.data)

/-- Python `s.startswith(pat)`. -/
def strStarts (s pat : String) : Bool := List.isPrefixOf pat.data s.data

/-- Python `s.endswith(pat)`. -/
def strEnds (s pat : String) : Bool := List.isSuffixOf pat.data s.data

/-- Drop leading and trailing whitespace from a character list. -/
def trimChars (l : List Char) : List Char :=
  ((l.dropWhile Char.isWhitespace).reverse.dropWhile Char.isWhitespace).reverse

/-- Python `s.strip()` (whitespace on both ends; the source only ever strips
ASCII whitespace-adjacent text, so `Char.isWhitespace` is adequate). -/
def pyStrip (s : String) : String := ⟨trimChars s.data⟩

/-- Python `s.lower()`, character by character. -/
def lowerStr (s : String) : String := ⟨s.data.map Char.toLower⟩

/-! ## Config constants used by the core (class `Config`, src/iptvflow.py) -/

namespace Config

def TIMEOUT : Nat := 8

def MAX_WORKERS : Nat := 15

def HTTP_OK : Nat := 200

def M3U_HEADER : String := "#EXTM3U"

def HLS_EXTENSIONS : List String := [".m3u8", ".m3u"]

end Config

/-- Python `u.endswith(Config.HLS_EXTENSIONS)` (tuple argument: any suffix). -/
def endsWithHls (u : String) : Bool := Config.HLS_EXTENSIONS.any (fun ext => strEnds u ext)

/-! ## Prober (`is_valid_hls_content`, `is_valid_hls_stream`,
`test_single_stream`, src/iptvflow.py lines 331-486) -/

/-- `is_valid_hls_content` (line 331): the stripped text must start with the
`#EXTM3U` header and contain one of the two format-defining tags. -/
def is_valid_hls_content (text : String) : Bool :=
  let txt := pyStrip text
  strStarts txt Config.M3U_HEADER &&
    (strContains txt "#EXTINF" || strContains txt "#EXT-X-STREAM-INF")

/-- The classification rule exactly as the spec sentence words it ("must
contain the playlist-format header marker and at least one of the two
format-defining tags"): pure containment, no start-of-text requirement.
Used only to compare the spec's wording against `is_valid_hls_content`. -/
def spec_contains_manifest (text : String) : Bool :=
  strContains text Config.M3U_HEADER &&
    (strContains text "#EXTINF" || strContains text "#EXT-X-STREAM-INF")

/-- Verdict of one probe: the dict returned by `is_valid_hls_stream`. -/
structure Verdict where
  alive : Bool
  latency : Rat
  type : String
  reason : String
deriving DecidableEq, Repr

/-- Oracle for the effects of one `is_valid_hls_stream` / `test_single_stream`
call: HEAD outcome, GET outcome (status and permissively-decoded 2KB text,
where `.error e` stands for a raised exception with message `e`), the wall
clock elapsed at each measurement point, and deep-validator availability
and answers.  `bytes.decode(errors=ignore)` never raises, so decoding is
folded into the GET oracle. -/
structure ProbeEnv where
  headRes : Except String Nat
  getRes : Except String (Nat × String)
  latHeadFail : Rat
  latGetFail : Rat
  latContent : Rat
  latErr : Rat
  ffmpegAvailable : Bool
  ffprobeOk : Bool
  ocrAvailable : Bool
  ocrOk : Bool
deriving Repr

/-- HEAD statuses accepted by the pre-check (line 427). -/
def headAllowed : List Nat := [Config.HTTP_OK, 206, 301, 302]

/-- Master/media/hls sub-classification of a valid manifest (line 448). -/
def stream_subtype (text : String) : String :=
  if strContains text "#EXT-X-STREAM-INF" then "master"
  else if strContains (lowerStr text) ".ts" then "media"
  else "hls"

/-- The part of `is_valid_hls_stream` from the GET request on (lines
433-459); a raised GET is caught by the enclosing `except` (line 460). -/
def is_valid_hls_stream_get (env : ProbeEnv) (url : String) : Verdict :=
  match env.getRes with
  | .error e => ⟨false, env.latErr, "error", e⟩
  | .ok (status, text) =>
    if status ≠ Config.HTTP_OK then
      ⟨false, env.latGetFail, "dead", "GET " ++ toString status⟩
    else if !(is_valid_hls_content text) then
      ⟨false, env.latContent, "not_hls", "Not valid M3U8"⟩
    else if !(endsWithHls url) && env.ffmpegAvailable && !env.ffprobeOk then
      ⟨false, env.latContent, stream_subtype text, "FFmpeg validation failed"⟩
    else
      ⟨true, env.latContent, stream_subtype text, "OK"⟩

/-- `is_valid_hls_stream` (line 416): advisory HEAD pre-check (its own
exceptions are swallowed, line 429), then the GET stage.  `run_ffprobe` and
availability checks catch their own exceptions and return a Bool, hence the
plain `ffmpegAvailable` / `ffprobeOk` oracle fields. -/
def is_valid_hls_stream (env : ProbeEnv) (url : String) : Verdict :=
  match env.headRes with
  | .ok s =>
    if !(headAllowed.contains s) then
      ⟨false, env.latHeadFail, "dead", "HEAD " ++ toString s⟩
    else is_valid_hls_stream_get env url
  | .error _ => is_valid_hls_stream_get env url

/-- `test_single_stream` (line 464): the final per-channel confirmatory
probe; all exceptions are caught and become `false` (line 485). -/
def test_single_stream (env : ProbeEnv) (url : String) : Bool :=
  match env.getRes with
  | .error _ => false
  | .ok (status, text) =>
    if status ≠ Config.HTTP_OK then false
    else if !(is_valid_hls_content text) then false
    else if !(endsWithHls url) && env.ocrAvailable then env.ocrOk
    else true

/-! ## Host Resolver (`get_host_key`, src/iptvflow.py lines 230-240)

`get_host_key` delegates to `urllib.parse.urlparse`.  The fragment of
`urlparse` it exercises (scheme split, netloc extraction, the `hostname`
and `port` properties, where `.port` raises `ValueError` on a non-numeric
or out-of-range port) is modelled below for bracket-free authorities
(no IPv6 literals), which covers every URL shape the claims concern. -/

/-- Characters allowed in a URL scheme after the leading letter. -/
def schemeChar (c : Char) : Bool := c.isAlphanum || c = '+' || c = '-' || c = '.'

/-- Scan for the first colon, returning (chars before it, chars after). -/
def splitColonAux : List Char → List Char → Option (List Char × List Char)
  | [], _ => none
  | c :: rest, acc =>
    if c = ':' then some (acc.reverse, rest) else splitColonAux rest (c :: acc)

/-- urlparse's scheme split: if the text before the first colon is a
non-empty valid scheme (letter then scheme chars), the scheme is that text
lowercased and the remainder follows the colon; otherwise the scheme is
empty and the URL is untouched. -/
def split_scheme (u : String) : String × String :=
  match splitColonAux u.data [] with
  | some (pre, rest) =>
    match pre with
    | [] => ("", u)
    | c0 :: cs =>
      if c0.isAlpha && cs.all schemeChar then (lowerStr ⟨pre⟩, ⟨rest⟩) else ("", u)
  | none => ("", u)

/-- urlparse's netloc: present only after a leading `//`, ending at the
first `/`, `?` or `#`. -/
def get_netloc (rest : String) : String :=
  match rest.data with
  | '/' :: '/' :: tail => ⟨tail.takeWhile (fun c => c ≠ '/' && c ≠ '?' && c ≠ '#')⟩
  | _ => ""

/-- Drop userinfo: everything up to and including the last `@`. -/
def after_userinfo (netloc : List Char) : List Char :=
  ((netloc.reverse.takeWhile (fun c => c ≠ '@'))).reverse

/-- The host text of the authority: before the first colon. -/
def host_chars (netloc : List Char) : List Char :=
  (after_userinfo netloc).takeWhile (fun c => c ≠ ':')

/-- The port text of the authority: after the first colon, `none` if there
is no colon. -/
def port_chars (netloc : List Char) : Option (List Char) :=
  match (after_userinfo netloc).dropWhile (fun c => c ≠ ':') with
  | [] => none
  | _ :: rest => some rest

/-- urlparse's `hostname` property: `None` when empty, else lowercased. -/
def model_hostname (netloc : String) : Option String :=
  let h := host_chars netloc.data
  if h.isEmpty then none else some (lowerStr ⟨h⟩)

/-- Decimal digit-string value. -/
def digitsToNat (l : List Char) : Nat :=
  l.foldl (fun a c => a * 10 + (c.toNat - 48)) 0

/-- urlparse's `port` property: `none` when absent or empty; raises
(`.error`) when non-numeric or outside 0-65535. -/
def model_port (netloc : String) : Except String (Option Nat) :=
  match port_chars netloc.data with
  | none => .ok none
  | some ps =>
    if ps.isEmpty then .ok none
    else if ps.all Char.isDigit then
      let n := digitsToNat ps
      if n ≤ 65535 then .ok (some n) else .error "Port out of range 0-65535"
    else .error "Port could not be cast to integer value"

/-- Scheme-default port (line 237): `p.port or (443 if https else 80)`.
Python `or` takes the default when `p.port` is `None` and also when it is
the falsy integer `0`. -/
def default_port (scheme : String) : Nat := if scheme = "https" then 443 else 80

/-- `get_host_key` (line 230): `host:port` of a URL; the `try/except`
returns `None` when `.port` raises, and the final conditional returns
`None` when `hostname` is falsy. -/
def get_host_key (u : String) : Option String :=
  let sr := split_scheme u
  let netloc := get_netloc sr.2
  match model_port netloc with
  | .error _ => none
  | .ok po =>
    let port : Nat :=
      match po with
      | some p => if p = 0 then default_port sr.1 else p
      | none => default_port sr.1
    match model_hostname netloc with
    | some h => some (h ++ ":" ++ toString port)
    | none => none

/-! ## Two-Phase Host Tester (`test_hosts_two_phase`, src/iptvflow.py
lines 689-780)

The tester is parametric in `probe : String → Verdict`, standing for
`is_valid_hls_stream` together with the (fixed-for-the-run) network state
it consults.  Each worker-pool submission is serialised in submission
order; the dict `host_quality` becomes an association list whose key set
is what the claims inspect. -/

/-- Quality record per host: the dict stored into `host_quality`.
`representative_url` is an `Option` because `rep_url` is `None` for a
host with an empty URL list. -/
structure QualityRecord where
  alive : Bool
  latency : Rat
  type : String
  representative_url : Option String
  trials : Nat
deriving DecidableEq, Repr

/-- Per-host data built at line 699-702: all URLs plus the representative. -/
structure HostData where
  all_urls : List String
  rep : Option String
deriving DecidableEq, Repr

/-- Representative selection (line 701): first URL with a manifest
extension, else the first URL, else `None`. -/
def rep_url (urls : List String) : Option String :=
  match urls with
  | [] => none
  | u0 :: _ => some ((urls.find? endsWithHls).getD u0)

/-- `host_data` construction (lines 699-702). -/
def mk_host_data (host_to_urls : List (String × List String)) : List (String × HostData) :=
  host_to_urls.map (fun p => (p.1, ⟨p.2, rep_url p.2⟩))

/-- Python truthiness of `data["rep_url"]`: a present, non-empty string. -/
def truthyRep (o : Option String) : Bool :=
  match o with
  | some s => s ≠ ""
  | none => false

/-- Condition under which phase 1 resolves a host: its representative is
truthy (so a probe is submitted, line 709-711) and that probe is alive
(line 717). -/
def p1cond (probe : String → Verdict) (p : String × HostData) : Bool :=
  match p.2.rep with
  | some r => r ≠ "" && (probe r).alive
  | none => false

/-- The record phase 1 stores for an alive host (lines 718-724). -/
def phase1_record (probe : String → Verdict) (d : HostData) : QualityRecord :=
  match d.rep with
  | some r => ⟨true, (probe r).latency, (probe r).type, some r, 1⟩
  | none => ⟨true, 0, "", none, 1⟩

/-- Phase 1 (lines 706-724): probe every truthy representative; keep a
quality record exactly for the alive ones. -/
def phase1_alive (probe : String → Verdict) (hd : List (String × HostData)) :
    List (String × QualityRecord) :=
  hd.filterMap (fun p =>
    match p.2.rep with
    | some r =>
      if r = "" then none
      else if (probe r).alive then some (p.1, phase1_record probe p.2) else none
    | none => none)

/-- The probes submitted in phase 1 (lines 709-711), tagged by host: one
per truthy representative, alive or not. -/
def phase1_probes (hd : List (String × HostData)) : List (String × String) :=
  hd.filterMap (fun p =>
    match p.2.rep with
    | some r => if r = "" then none else some (p.1, r)
    | none => none)

/-- Hosts left without a record after phase 1 (`host not in host_quality`,
line 729). -/
def unresolved_hosts (probe : String → Verdict) (hd : List (String × HostData)) :
    List (String × HostData) :=
  hd.filter (fun p => ((phase1_alive probe hd).lookup p.1).isNone)

/-- Alternate candidates of a host (line 730): its URLs minus the
representative (comparison with a `None` representative is always unequal
in Python, so every URL survives in that case). -/
def fallback_candidates (d : HostData) : List String :=
  d.all_urls.filter (fun u => !(d.rep == some u))

/-- `hosts_to_retry` (lines 727-732): unresolved hosts with at least one
alternate, capped at 3 alternates. -/
def hosts_to_retry (probe : String → Verdict) (hd : List (String × HostData)) :
    List (String × List String) :=
  (unresolved_hosts probe hd).filterMap (fun p =>
    let cs := fallback_candidates p.2
    if cs.isEmpty then none else some (p.1, cs.take 3))

/-- The `no_fallback` records written at lines 734-740 for unresolved
hosts with no alternates. -/
def no_fallback_records (probe : String → Verdict) (hd : List (String × HostData)) :
    List (String × QualityRecord) :=
  (unresolved_hosts probe hd).filterMap (fun p =>
    if (fallback_candidates p.2).isEmpty then
      some (p.1, ⟨false, 999, "no_fallback", p.2.rep, 1⟩)
    else none)

/-- The success/failure payload built by `fallback_test` (lines 750-752):
latency and type of the decisive verdict, plus the succeeding URL. -/
structure FallbackResult where
  latency : Rat
  type : String
  url : Option String
deriving DecidableEq, Repr

/-- The `for i, url in enumerate(candidates)` loop of `fallback_test`
(lines 747-750) with its probe trace: stop at the first alive verdict,
returning it with `i + 1`; `i` is threaded as the 0-based position. -/
def fallback_runT (probe : String → Verdict) :
    List String → Nat → Option (FallbackResult × Nat) × List String
  | [], _ => (none, [])
  | u :: rest, i =>
    let res := probe u
    if res.alive then (some (⟨res.latency, res.type, some u⟩, i + 1), [u])
    else
      let t := fallback_runT probe rest (i + 1)
      (t.1, u :: t.2)

/-- `fallback_test` (lines 745-752) with its probe trace.  When every
candidate fails, the code calls `is_valid_hls_stream(candidates[-1])` once
more (line 751) — the trace records that extra invocation — and reports
`len(candidates)` as the trial count. -/
def fallback_testT (probe : String → Verdict) (host : String) (candidates : List String) :
    (String × Bool × FallbackResult × Nat) × List String :=
  match fallback_runT probe candidates 0 with
  | (some (r, trials), tr) => ((host, true, r, trials), tr)
  | (none, tr) =>
    match candidates.getLast? with
    | some lastU =>
      let lr := probe lastU
      ((host, false, ⟨lr.latency, lr.type, none⟩, candidates.length), tr ++ [lastU])
    | none => ((host, false, ⟨999, "all_failed", none⟩, 0), tr)

/-- `fallback_test` without the trace. -/
def fallback_test (probe : String → Verdict) (host : String) (candidates : List String) :
    String × Bool × FallbackResult × Nat :=
  (fallback_testT probe host candidates).1

/-- The record phase 2 stores from a `fallback_test` outcome (lines
757-774): on success the succeeding URL replaces the representative; on
failure the original representative is kept. -/
def fallback_record (probe : String → Verdict) (rep : Option String)
    (host : String) (cs : List String) : QualityRecord :=
  let out := fallback_test probe host cs
  let success := out.2.1
  let fr := out.2.2.1
  let trials := out.2.2.2
  if success then ⟨true, fr.latency, fr.type, fr.url, 1 + trials⟩
  else ⟨false, fr.latency, fr.type, rep, 1 + trials⟩

/-- Phase 2 records (lines 744-774): one `fallback_test` per entry of
`hosts_to_retry`, i.e. per unresolved host with a non-empty alternate
list. -/
def phase2_records (probe : String → Verdict) (hd : List (String × HostData)) :
    List (String × QualityRecord) :=
  (unresolved_hosts probe hd).filterMap (fun p =>
    let cs := fallback_candidates p.2
    if cs.isEmpty then none
    else some (p.1, fallback_record probe p.2.rep p.1 (cs.take 3)))

/-- The probes issued in phase 2, tagged by host: the `fallback_testT`
trace of every retried host. -/
def phase2_probes (probe : String → Verdict) (hd : List (String × HostData)) :
    List (String × String) :=
  (hosts_to_retry probe hd).flatMap
    (fun p => ((fallback_testT probe p.1 p.2).2).map (fun u => (p.1, u)))

/-- `test_hosts_two_phase` (line 689): phase-1 records, then the
`no_fallback` records, then the phase-2 fallback records.  (In the source
these are insertions into one dict; only the key-record association is
observable.) -/
def test_hosts_two_phase (probe : String → Verdict) (m : List (String × List String)) :
    List (String × QualityRecord) :=
  let hd := mk_host_data m
  phase1_alive probe hd ++ no_fallback_records probe hd ++ phase2_records probe hd

/-- Every probe the tester issues, tagged by the host it was issued for. -/
def tester_probes (probe : String → Verdict) (m : List (String × List String)) :
    List (String × String) :=
  phase1_probes (mk_host_data m) ++ phase2_probes probe (mk_host_data m)

/-! ## Channel Candidate Resolver (`build_final_playlist`, src/iptvflow.py
lines 815-861) -/

/-- One grouped channel entry: URL plus the original display name. -/
structure ChanItem where
  url : String
  original_name : String
deriving DecidableEq, Repr

/-- A surviving candidate (lines 835-839). -/
structure Candidate where
  url : String
  latency : Rat
  original_name : String
deriving DecidableEq, Repr

/-- One final playlist entry (lines 849-853). -/
structure FinalChannel where
  channel : String
  original_name : String
  url : String
deriving DecidableEq, Repr

/-- The candidate filter (lines 829-839): keep a URL only when its host
resolves (to a truthy key) and that host's quality record exists and is
alive, carrying over the recorded latency. -/
def build_candidates (url_to_host : List (String × String))
    (host_quality : List (String × QualityRecord)) (items : List ChanItem) :
    List Candidate :=
  items.filterMap (fun item =>
    match url_to_host.lookup item.url with
    | some host =>
      if host ≠ "" then
        match host_quality.lookup host with
        | some r => if r.alive then some ⟨item.url, r.latency, item.original_name⟩ else none
        | none => none
      else none
    | none => none)

/-- Candidate ordering key (line 841): ascending recorded latency. -/
def latLeP (a b : Candidate) : Prop := a.latency ≤ b.latency

instance : DecidableRel latLeP :=
  fun a b => inferInstanceAs (Decidable (a.latency ≤ b.latency))

instance : IsTotal Candidate latLeP := ⟨fun a b => le_total a.latency b.latency⟩

instance : IsTrans Candidate latLeP := ⟨fun _ _ _ hab hbc => le_trans hab hbc⟩

/-- `channel_to_candidates` (lines 827-842): per channel, the surviving
candidates sorted by latency; channels with no survivor are dropped.
Python's `list.sort` is a stable sort, and any two stable sorts agree on
every input, so the embedding uses the structurally-recursive (hence
kernel-evaluable) stable insertion sort. -/
def channel_to_candidates (grouped : List (String × List ChanItem))
    (url_to_host : List (String × String))
    (host_quality : List (String × QualityRecord)) :
    List (String × List Candidate) :=
  grouped.filterMap (fun g =>
    let cands := build_candidates url_to_host host_quality g.2
    if cands.isEmpty then none else some (g.1, List.insertionSort latLeP cands))

/-- The per-channel walk (lines 846-854) with its probe trace: test each
candidate in order, stop at the first success. -/
def select_candidateT (tss : String → Bool) : List Candidate → Option Candidate × List String
  | [] => (none, [])
  | c :: rest =>
    if tss c.url then (some c, [c.url])
    else
      let t := select_candidateT tss rest
      (t.1, c.url :: t.2)

/-- `build_final_playlist` (line 815), parametric in the confirmatory
probe `tss` standing for `test_single_stream` with its network state:
channels whose walk selects no candidate are skipped (line 857-858). -/
def build_final_playlist (tss : String → Bool) (grouped : List (String × List ChanItem))
    (url_to_host : List (String × String))
    (host_quality : List (String × QualityRecord)) : List FinalChannel :=
  (channel_to_candidates grouped url_to_host host_quality).filterMap (fun g =>
    match (select_candidateT tss g.2).1 with
    | some cand => some ⟨g.1, cand.original_name, cand.url⟩
    | none => none)

/-! ## Concrete fixtures used to instantiate the theorems -/

/-- A probe oracle on which every URL is dead. -/
def deadProbe : String → Verdict := fun _ => ⟨false, 5, "dead", "GET 404"⟩

/-- A probe oracle alive exactly on the given URLs. -/
def aliveOn (good : List String) : String → Verdict :=
  fun u => if good.contains u then ⟨true, 2, "hls", "OK"⟩ else ⟨false, 5, "dead", "GET 404"⟩

/-- A probe environment whose GET returns 200 with non-manifest text. -/
def envNotHls : ProbeEnv :=
  ⟨Except.ok 200, Except.ok (200, "hello"), 1, 1, 2, 3, false, true, false, true⟩

/-- A probe environment whose GET raises. -/
def envBoom : ProbeEnv :=
  ⟨Except.error "timeout", Except.error "boom", 1, 1, 2, 3, false, true, false, true⟩

/-- A probe environment fetching text that merely CONTAINS the manifest
marker (not at the start). -/
def envContainsOnly : ProbeEnv :=
  ⟨Except.ok 200, Except.ok (200, "x#EXTM3U\n#EXTINF:-1,a"), 1, 1, 2, 3, false, true, false, true⟩

/-- One grouped channel for the resolver instances. -/
def wGrouped : List (String × List ChanItem) :=
  [("CCTV1", [⟨"http://a/bad.m3u8", "CCTV-1 bad"⟩, ⟨"http://a/1.m3u8", "CCTV-1"⟩])]

/-- URL-to-host map for the resolver instances. -/
def wU2h : List (String × String) :=
  [("http://a/bad.m3u8", "b:80"), ("http://a/1.m3u8", "a:80")]

/-- Host-quality map for the resolver instances: both hosts alive, the
bad URL's host faster. -/
def wHq : List (String × QualityRecord) :=
  [("a:80", ⟨true, 7, "hls", some "http://a/1.m3u8", 1⟩),
    ("b:80", ⟨true, 2, "hls", some "http://a/bad.m3u8", 1⟩)]

/-- A confirmatory probe that accepts only `http://a/1.m3u8`. -/
def tssGood : String → Bool := fun u => u == "http://a/1.m3u8"

/-! ## Association-list helper lemmas -/

/-- A key absent from the key list looks up to nothing. -/
theorem lookup_eq_none_of_not_mem {α : Type} (l : List (String × α)) (a : String)
    (h : a ∉ l.map Prod.fst) : l.lookup a = none := by
  induction l with
  | nil => rfl
  | cons q rest ih =>
    simp only [List.map_cons, List.mem_cons, not_or] at h
    obtain ⟨h1, h2⟩ := h
    obtain ⟨k, b⟩ := q
    rw [List.lookup_cons]
    have hk : (a == k) = false := by simpa using h1
    simp [hk, ih h2]

/-- With duplicate-free keys, two entries sharing a key are one entry. -/
theorem eq_of_mem_nodupKeys {α : Type} {l : List (String × α)}
    (hnd : (l.map Prod.fst).Nodup) {p q : String × α}
    (hp : p ∈ l) (hq : q ∈ l) (hk : p.1 = q.1) : p = q := by
  induction l with
  | nil => cases hp
  | cons x rest ih =>
    simp only [List.map_cons, List.nodup_cons] at hnd
    obtain ⟨hx, hnd'⟩ := hnd
    rcases List.mem_cons.mp hp with hp1 | hp2 <;> rcases List.mem_cons.mp hq with hq1 | hq2
    · rw [hp1, hq1]
    · exfalso
      apply hx
      rw [← hp1, hk]
      exact List.mem_map.mpr ⟨q, hq2, rfl⟩
    · exfalso
      apply hx
      rw [← hq1, ← hk]
      exact List.mem_map.mpr ⟨p, hp2, rfl⟩
    · exact ih hnd' hp2 hq2

/-- A guarded `filterMap` is a `filter` followed by a `map`. -/
theorem filterMap_guard {α β : Type} (l : List α) (c : α → Bool) (k : α → β) :
    l.filterMap (fun a => if c a then some (k a) else none) = (l.filter c).map k := by
  induction l with
  | nil => rfl
  | cons x rest ih =>
    by_cases hx : c x <;> simp [List.filterMap_cons, List.filter_cons, hx, ih]

/-- The negated-guard variant of `filterMap_guard`. -/
theorem filterMap_guard_neg {α β : Type} (l : List α) (c : α → Bool) (k : α → β) :
    l.filterMap (fun a => if c a then none else some (k a)) =
      (l.filter (fun a => !(c a))).map k := by
  induction l with
  | nil => rfl
  | cons x rest ih =>
    by_cases hx : c x <;> simp [List.filterMap_cons, List.filter_cons, hx, ih]

/-- Looking up an entry's key in a key-preserving filter-and-map of a
duplicate-free association list finds exactly that entry's image. -/
theorem lookup_filterKeyMap {α β : Type} (l : List (String × α)) (c : String × α → Bool)
    (f : String × α → β) (hnd : (l.map Prod.fst).Nodup) {p : String × α} (hp : p ∈ l) :
    ((l.filter c).map (fun q => (q.1, f q))).lookup p.1 = if c p then some (f p) else none := by
  induction l with
  | nil => cases hp
  | cons x rest ih =>
    simp only [List.map_cons, List.nodup_cons] at hnd
    obtain ⟨hx, hnd'⟩ := hnd
    rcases List.mem_cons.mp hp with hp1 | hp2
    · subst hp1
      by_cases hc : c p
      · simp [List.filter_cons, hc, List.lookup_cons]
      · have hkeys : p.1 ∉ ((rest.filter c).map (fun q => (q.1, f q))).map Prod.fst := by
          intro hmem
          apply hx
          rcases List.mem_map.mp hmem with ⟨y, hy, hy1⟩
          rcases List.mem_map.mp hy with ⟨q, hq, hq1⟩
          exact List.mem_map.mpr ⟨q, (List.mem_filter.mp hq).1, by rw [← hq1] at hy1; exact hy1⟩
        simp [List.filter_cons, hc, lookup_eq_none_of_not_mem _ _ hkeys]
    · have hne : (p.1 == x.1) = false := by
        have : x.1 ≠ p.1 := fun he => hx (he ▸ List.mem_map.mpr ⟨p, hp2, rfl⟩)
        simpa using Ne.symm this
      by_cases hc : c x <;>
        simp [List.filter_cons, hc, List.lookup_cons, hne, ih hnd' hp2]

/-! ## Structural lemmas about the two-phase tester -/

/-- `mk_host_data` keeps the key list of its input. -/
theorem keys_mk_host_data (m : List (String × List String)) :
    (mk_host_data m).map Prod.fst = m.map Prod.fst := by
  simp [mk_host_data, List.map_map]

/-- Phase 1 in filter-then-map normal form. -/
theorem phase1_alive_eq (probe : String → Verdict) (hd : List (String × HostData)) :
    phase1_alive probe hd =
      (hd.filter (p1cond probe)).map (fun p => (p.1, phase1_record probe p.2)) := by
  rw [← filterMap_guard]
  unfold phase1_alive
  congr 1
  funext p
  cases hrep : p.2.rep with
  | none => simp [p1cond, hrep]
  | some r =>
    by_cases hr : r = "" <;> by_cases ha : (probe r).alive <;>
      simp [p1cond, hrep, hr, ha]

/-- Looking up a host in the phase-1 records. -/
theorem lookup_phase1 (probe : String → Verdict) (hd : List (String × HostData))
    (hnd : (hd.map Prod.fst).Nodup) {p : String × HostData} (hp : p ∈ hd) :
    (phase1_alive probe hd).lookup p.1 =
      if p1cond probe p then some (phase1_record probe p.2) else none := by
  rw [phase1_alive_eq]
  exact lookup_filterKeyMap hd _ _ hnd hp

/-- With duplicate-free keys, the unresolved hosts are exactly those
failing the phase-1 condition. -/
theorem unresolved_eq (probe : String → Verdict) (hd : List (String × HostData))
    (hnd : (hd.map Prod.fst).Nodup) :
    unresolved_hosts probe hd = hd.filter (fun p => !(p1cond probe p)) := by
  unfold unresolved_hosts
  apply List.filter_congr
  intro p hp
  rw [lookup_phase1 probe hd hnd hp]
  by_cases hc : p1cond probe p <;> simp [hc]

/-- The `no_fallback` records in filter-then-map normal form. -/
theorem no_fallback_records_eq (probe : String → Verdict) (hd : List (String × HostData))
    (hnd : (hd.map Prod.fst).Nodup) :
    no_fallback_records probe hd =
      (hd.filter (fun p =>
          (fallback_candidates p.2).isEmpty && !(p1cond probe p))).map
        (fun p => (p.1, ⟨false, 999, "no_fallback", p.2.rep, 1⟩)) := by
  unfold no_fallback_records
  rw [unresolved_eq probe hd hnd, ← List.filter_filter, ← filterMap_guard]

/-- The phase-2 records in filter-then-map normal form. -/
theorem phase2_records_eq (probe : String → Verdict) (hd : List (String × HostData))
    (hnd : (hd.map Prod.fst).Nodup) :
    phase2_records probe hd =
      (hd.filter (fun p =>
          !((fallback_candidates p.2).isEmpty) && !(p1cond probe p))).map
        (fun p => (p.1, fallback_record probe p.2.rep p.1 ((fallback_candidates p.2).take 3))) := by
  unfold phase2_records
  rw [unresolved_eq probe hd hnd, ← List.filter_filter, ← filterMap_guard_neg]

/-- Master per-host characterisation of the tester's output: under
duplicate-free keys, each host's record is determined by its own data —
phase-1 success record, immediate `no_fallback` record, or the phase-2
fallback record. -/
theorem tester_lookup (probe : String → Verdict) (m : List (String × List String))
    (hnd : (m.map Prod.fst).Nodup) {p : String × HostData} (hp : p ∈ mk_host_data m) :
    (test_hosts_two_phase probe m).lookup p.1 =
      some (if p1cond probe p then phase1_record probe p.2
        else if (fallback_candidates p.2).isEmpty then
          ⟨false, 999, "no_fallback", p.2.rep, 1⟩
        else fallback_record probe p.2.rep p.1 ((fallback_candidates p.2).take 3)) := by
  have hndh : ((mk_host_data m).map Prod.fst).Nodup := by
    rw [keys_mk_host_data]; exact hnd
  unfold test_hosts_two_phase
  rw [List.lookup_append, List.lookup_append]
  rw [lookup_phase1 probe _ hndh hp]
  rw [no_fallback_records_eq probe _ hndh, phase2_records_eq probe _ hndh]
  rw [lookup_filterKeyMap _ _ _ hndh hp, lookup_filterKeyMap _ _ _ hndh hp]
  by_cases h1 : p1cond probe p <;> by_cases h2 : (fallback_candidates p.2).isEmpty <;>
    simp [h1, h2]

/-! ## Characterisation of `fallback_test` -/

/-- When every candidate fails, the enumerate loop exhausts the list,
probing each candidate exactly once. -/
theorem fallback_runT_all_fail (probe : String → Verdict) (cs : List String)
    (h : ∀ u ∈ cs, (probe u).alive = false) :
    ∀ i, fallback_runT probe cs i = (none, cs) := by
  induction cs with
  | nil => intro i; rfl
  | cons u rest ih =>
    intro i
    have hu := h u (by simp)
    simp [fallback_runT, hu, ih (fun v hv => h v (by simp [hv]))]

/-- When every candidate fails, `fallback_test` reports failure with
`len(candidates)` trials, the verdict of one extra re-probe of the last
candidate, and a trace showing that candidate probed twice. -/
theorem fallback_testT_all_fail (probe : String → Verdict) (h : String)
    (cs : List String) (lastU : String) (hlast : cs.getLast? = some lastU)
    (hfail : ∀ u ∈ cs, (probe u).alive = false) :
    fallback_testT probe h cs =
      ((h, false, ⟨(probe lastU).latency, (probe lastU).type, none⟩, cs.length),
        cs ++ [lastU]) := by
  unfold fallback_testT
  rw [fallback_runT_all_fail probe cs hfail 0]
  simp [hlast]

/-- The enumerate loop stops at the first alive candidate, probing exactly
the failing ones before it plus the succeeding one, and reports its
1-based position. -/
theorem fallback_runT_first_success (probe : String → Verdict) (pre : List String)
    (u : String) (post : List String)
    (hpre : ∀ x ∈ pre, (probe x).alive = false) (hu : (probe u).alive = true) :
    ∀ i, fallback_runT probe (pre ++ u :: post) i =
      (some (⟨(probe u).latency, (probe u).type, some u⟩, i + pre.length + 1),
        pre ++ [u]) := by
  induction pre with
  | nil => intro i; simp [fallback_runT, hu]
  | cons x rest ih =>
    intro i
    have hx := hpre x (by simp)
    have harith : i + 1 + rest.length + 1 = i + (rest.length + 1) + 1 := by omega
    simp [fallback_runT, hx, ih (fun y hy => hpre y (by simp [hy])) (i + 1), harith]

/-- On a first success, `fallback_test` succeeds with the succeeding URL
and position, probing nothing after it. -/
theorem fallback_testT_first_success (probe : String → Verdict) (h : String)
    (pre : List String) (u : String) (post : List String)
    (hpre : ∀ x ∈ pre, (probe x).alive = false) (hu : (probe u).alive = true) :
    fallback_testT probe h (pre ++ u :: post) =
      ((h, true, ⟨(probe u).latency, (probe u).type, some u⟩, pre.length + 1),
        pre ++ [u]) := by
  unfold fallback_testT
  rw [fallback_runT_first_success probe pre u post hpre hu 0]
  simp

/-- Every probed URL in the enumerate loop is a candidate. -/
theorem fallback_runT_trace_subset (probe : String → Verdict) :
    ∀ (cs : List String) (i), ∀ u ∈ (fallback_runT probe cs i).2, u ∈ cs := by
  intro cs
  induction cs with
  | nil => intro i u hu; simp [fallback_runT] at hu
  | cons x rest ih =>
    intro i u hu
    by_cases hx : (probe x).alive
    · simp [fallback_runT, hx] at hu
      simp [hu]
    · simp only [fallback_runT, hx, Bool.false_eq_true, if_false, List.mem_cons] at hu
      rcases hu with hu | hu
      · simp [hu]
      · exact List.mem_cons_of_mem _ (ih (i + 1) u hu)

/-- The enumerate loop probes at most one URL per candidate. -/
theorem fallback_runT_trace_length (probe : String → Verdict) :
    ∀ (cs : List String) (i), (fallback_runT probe cs i).2.length ≤ cs.length := by
  intro cs
  induction cs with
  | nil => intro i; simp [fallback_runT]
  | cons x rest ih =>
    intro i
    by_cases hx : (probe x).alive <;> simp [fallback_runT, hx]
    exact ih (i + 1)

/-- Every URL `fallback_test` probes is one of the candidates it was
given. -/
theorem fallback_testT_trace_subset (probe : String → Verdict) (h : String)
    (cs : List String) : ∀ u ∈ (fallback_testT probe h cs).2, u ∈ cs := by
  intro u hu
  unfold fallback_testT at hu
  rcases hrun : fallback_runT probe cs 0 with ⟨o, tr⟩
  rw [hrun] at hu
  cases o with
  | some r =>
    apply fallback_runT_trace_subset probe cs 0
    rw [hrun]
    exact hu
  | none =>
    cases hlast : cs.getLast? with
    | none =>
      rw [hlast] at hu
      apply fallback_runT_trace_subset probe cs 0
      rw [hrun]
      exact hu
    | some lastU =>
      rw [hlast] at hu
      simp at hu
      rcases hu with hu | hu
      · apply fallback_runT_trace_subset probe cs 0
        rw [hrun]
        exact hu
      · rw [hu]
        rcases List.getLast?_eq_some_iff.mp hlast with ⟨ys, hys⟩
        simp [hys]

/-- `fallback_test` issues at most one probe per candidate plus at most
one re-probe of the last candidate. -/
theorem fallback_testT_trace_length (probe : String → Verdict) (h : String)
    (cs : List String) : (fallback_testT probe h cs).2.length ≤ cs.length + 1 := by
  unfold fallback_testT
  rcases hrun : fallback_runT probe cs 0 with ⟨o, tr⟩
  have hlen : tr.length ≤ cs.length := by
    have := fallback_runT_trace_length probe cs 0
    rw [hrun] at this
    exact this
  cases o with
  | some r => simpa using Nat.le_succ_of_le hlen
  | none =>
    cases hlast : cs.getLast? with
    | none => simpa using Nat.le_succ_of_le hlen
    | some lastU => simpa using hlen

/-! ## Characterisation of the per-channel walk -/

/-- The walk selects exactly what `find?` finds. -/
theorem select_candidateT_eq_find (tss : String → Bool) :
    ∀ cs : List Candidate, (select_candidateT tss cs).1 = cs.find? (fun c => tss c.url) := by
  intro cs
  induction cs with
  | nil => rfl
  | cons c rest ih =>
    by_cases hc : tss c.url <;> simp [select_candidateT, List.find?, hc, ih]

/-- When every candidate fails the confirmatory probe, the walk probes all
of them and selects nothing. -/
theorem select_candidateT_all_fail (tss : String → Bool) (cs : List Candidate)
    (h : ∀ c ∈ cs, tss c.url = false) :
    select_candidateT tss cs = (none, cs.map (fun c => c.url)) := by
  induction cs with
  | nil => rfl
  | cons c rest ih =>
    have hc := h c (by simp)
    simp [select_candidateT, hc, ih (fun d hd => h d (by simp [hd]))]

/-- The walk stops at the first passing candidate: every candidate before
it is probed once, it is probed once, and nothing after it is probed. -/
theorem select_candidateT_first_success (tss : String → Bool) (pre : List Candidate)
    (c : Candidate) (post : List Candidate)
    (hpre : ∀ x ∈ pre, tss x.url = false) (hc : tss c.url = true) :
    select_candidateT tss (pre ++ c :: post) =
      (some c, pre.map (fun x => x.url) ++ [c.url]) := by
  induction pre with
  | nil => simp [select_candidateT, hc]
  | cons x rest ih =>
    have hx := hpre x (by simp)
    simp [select_candidateT, hx, ih (fun y hy => hpre y (by simp [hy]))]

/-! ## Claim C4 -/

/-- C4 counterexample: this text CONTAINS the playlist-format header
marker and a format-defining tag — the claim's condition — yet
`is_valid_hls_content` rejects it (the marker must be at the start of the
stripped text), and on a 2xx fetch of it the Prober records alive=false
with contentType not_hls.  So "contains the playlist-format header
marker" does not characterise the code's classification. -/
theorem c4_counterexample :
    spec_contains_manifest "x#EXTM3U\n#EXTINF:-1,a" = true ∧
    is_valid_hls_content "x#EXTM3U\n#EXTINF:-1,a" = false ∧
    is_valid_hls_stream envContainsOnly "http://h/x.m3u8" =
      ⟨false, 2, "not_hls", "Not valid M3U8"⟩ :=
  ⟨by decide, by decide, by decide⟩

/-- C4 amended: a fetched text is classified a valid stream manifest iff
its stripped form STARTS WITH the `#EXTM3U` header marker and contains at
least one of the two format-defining tags; and any other 2xx-fetched text
(one failing this classification) yields a verdict with alive=false and
contentType `not_hls` (the code's spelling of the spec's not_stream). -/
theorem c4_amended_manifest_classification (text : String) :
    (is_valid_hls_content text = true ↔
      (Config.M3U_HEADER.data <+: (pyStrip text).data ∧
        ("#EXTINF".data <:+: (pyStrip text).data ∨
          "#EXT-X-STREAM-INF".data <:+: (pyStrip text).data))) ∧
    (∀ env url, (∀ s, env.headRes = Except.ok s → headAllowed.contains s = true) →
      ∀ st, env.getRes = Except.ok (st, text) → st = Config.HTTP_OK →
      is_valid_hls_content text = false →
      is_valid_hls_stream env url =
        ⟨false, env.latContent, "not_hls", "Not valid M3U8"⟩) := by
  constructor
  · simp only [is_valid_hls_content, Bool.and_eq_true, Bool.or_eq_true, strStarts,
      strContains, List.isPrefixOf_iff_prefix, decide_eq_true_eq]
  · intro env url hhead st hget hst hbad
    have hgetstage : is_valid_hls_stream_get env url =
        ⟨false, env.latContent, "not_hls", "Not valid M3U8"⟩ := by
      unfold is_valid_hls_stream_get
      rw [hget, hst]
      simp [hbad]
    unfold is_valid_hls_stream
    cases hh : env.headRes with
    | ok s =>
      have hmem : s ∈ headAllowed := by simpa using hhead s hh
      simp [hmem, hgetstage]
    | error e => exact hgetstage

/-- C4 amended witness: a 200 GET of plain text is classified not_hls. -/
theorem c4_amended_witness :
    is_valid_hls_stream envNotHls "http://h/x" =
      ⟨false, 2, "not_hls", "Not valid M3U8"⟩ :=
  (c4_amended_manifest_classification "hello").2 envNotHls "http://h/x"
    (by intro s hs; cases hs; decide) 200 rfl rfl (by decide)

/-! ## Claim C5 -/

/-- An alive verdict of the GET stage requires a successful 200 response
with valid manifest content. -/
theorem get_alive_inv (env : ProbeEnv) (url : String)
    (h : (is_valid_hls_stream_get env url).alive = true) :
    ∃ st text, env.getRes = Except.ok (st, text) ∧ st = Config.HTTP_OK ∧
      is_valid_hls_content text = true := by
  unfold is_valid_hls_stream_get at h
  cases hres : env.getRes with
  | error e => rw [hres] at h; simp at h
  | ok p =>
    obtain ⟨st, text⟩ := p
    rw [hres] at h
    by_cases h1 : st = Config.HTTP_OK
    · by_cases h2 : is_valid_hls_content text
      · exact ⟨st, text, rfl, h1, h2⟩
      · simp [h1, h2] at h
    · simp [h1] at h

/-- C5: the Prober and the confirmatory prober never raise to their
caller: both are total functions into verdicts; an alive verdict can only
arise from a successful 200 fetch of valid manifest content; whenever the
underlying GET raises, the Prober returns alive=false (and, when the
advisory HEAD did not already short-circuit, exactly the error verdict
carrying the exception's message as its reason) and the confirmatory
prober returns false. -/
theorem c5_prober_never_raises (env : ProbeEnv) (url : String) :
    ((is_valid_hls_stream env url).alive = true →
      ∃ st text, env.getRes = Except.ok (st, text) ∧ st = Config.HTTP_OK ∧
        is_valid_hls_content text = true) ∧
    (∀ e, env.getRes = Except.error e →
      (is_valid_hls_stream env url).alive = false ∧
      test_single_stream env url = false) ∧
    (∀ e, env.getRes = Except.error e →
      (∀ s, env.headRes = Except.ok s → headAllowed.contains s = true) →
      is_valid_hls_stream env url = ⟨false, env.latErr, "error", e⟩) := by
  refine ⟨?_, ?_, ?_⟩
  · intro halive
    unfold is_valid_hls_stream at halive
    cases hh : env.headRes with
    | ok s =>
      rw [hh] at halive
      by_cases hc : s ∈ headAllowed
      · simp [hc] at halive
        exact get_alive_inv env url halive
      · simp [hc] at halive
    | error e =>
      rw [hh] at halive
      exact get_alive_inv env url halive
  · intro e he
    constructor
    · have hget : (is_valid_hls_stream_get env url).alive = false := by
        unfold is_valid_hls_stream_get
        rw [he]
      unfold is_valid_hls_stream
      cases hh : env.headRes with
      | ok s =>
        by_cases hc : s ∈ headAllowed <;> simp [hc, hget]
      | error e2 => exact hget
    · unfold test_single_stream
      rw [he]
  · intro e he hhead
    have hget : is_valid_hls_stream_get env url = ⟨false, env.latErr, "error", e⟩ := by
      unfold is_valid_hls_stream_get
      rw [he]
    unfold is_valid_hls_stream
    cases hh : env.headRes with
    | ok s =>
      have hmem : s ∈ headAllowed := by simpa using hhead s hh
      simp [hmem, hget]
    | error e2 => exact hget

/-- C5 witness: with a raising GET, the Prober reports a dead error
verdict and the confirmatory prober reports false. -/
theorem c5_witness :
    (is_valid_hls_stream envBoom "http://h/x").alive = false ∧
    test_single_stream envBoom "http://h/x" = false :=
  (c5_prober_never_raises envBoom "http://h/x").2.1 "boom" rfl

/-! ## Claim C9 -/

/-- C9 counterexample: `http://example.com:0/` carries an explicit port
(0), yet `get_host_key` substitutes the scheme default 80 — Python's
`p.port or default` treats the falsy integer 0 as absent — so the default
is not substituted "exactly when the URL has no explicit port".  (And
`http://example.com:abc/` has a parseable hostname yet yields absent,
because the parser's port access raises and is caught.) -/
theorem c9_counterexample :
    model_port (get_netloc (split_scheme "http://example.com:0/").2) =
      Except.ok (some 0) ∧
    get_host_key "http://example.com:0/" = some "example.com:80" ∧
    get_host_key "http://example.com:abc/" = none ∧
    model_hostname (get_netloc (split_scheme "http://example.com:abc/").2) =
      some "example.com" ∧
    (get_host_key "http://example.com:0/" = some "example.com:0" → False) :=
  ⟨rfl, by decide, by decide, by decide, by decide⟩

/-- C9 amended: `get_host_key` is a pure function of the URL text.  It
returns `host:port` where `host` is the parsed (lowercased) hostname and
`port` is the explicit port when present and non-zero; the scheme default
(443 for https, 80 otherwise) is substituted when the port is absent OR
explicitly 0 (Python's falsy `or`).  It returns absent exactly when the
URL has no parseable hostname OR its port component is invalid
(non-numeric or above 65535), in which case the parser's port access
raises and the exception is caught. -/
theorem c9_amended_host_key (u : String) :
    (get_host_key u = none ↔
      (model_hostname (get_netloc (split_scheme u).2) = none ∨
        ∃ e, model_port (get_netloc (split_scheme u).2) = Except.error e)) ∧
    (∀ h p, model_hostname (get_netloc (split_scheme u).2) = some h →
      model_port (get_netloc (split_scheme u).2) = Except.ok (some p) → p ≠ 0 →
      get_host_key u = some (h ++ ":" ++ toString p)) ∧
    (∀ h, model_hostname (get_netloc (split_scheme u).2) = some h →
      (model_port (get_netloc (split_scheme u).2) = Except.ok none ∨
        model_port (get_netloc (split_scheme u).2) = Except.ok (some 0)) →
      get_host_key u = some (h ++ ":" ++ toString (default_port (split_scheme u).1))) := by
  refine ⟨?_, ?_, ?_⟩
  · simp only [get_host_key]
    cases hport : model_port (get_netloc (split_scheme u).2) with
    | error e => simp [hport]
    | ok po =>
      cases hhost : model_hostname (get_netloc (split_scheme u).2) with
      | none => cases po <;> simp [hport, hhost]
      | some h => cases po <;> simp [hport, hhost]
  · intro h p hhost hport hp
    simp only [get_host_key]
    simp [hport, hhost, hp]
  · intro h hhost hport
    simp only [get_host_key]
    rcases hport with hport | hport <;> simp [hport, hhost]

/-- C9 amended witness: a https URL without explicit port resolves to the
lowercased host with the https default port. -/
theorem c9_amended_witness :
    get_host_key "https://EXAMPLE.com/x" =
      some ("example.com" ++ ":" ++
        toString (default_port (split_scheme "https://EXAMPLE.com/x").1)) :=
  (c9_amended_host_key "https://EXAMPLE.com/x").2.2 "example.com" (by decide)
    (Or.inl rfl)

/-! ## Claim C3 -/

/-- Projecting keys out of a key-preserving map. -/
theorem keys_keyMap {α β : Type} (l : List (String × α)) (f : String × α → β) :
    (l.map (fun q => (q.1, f q))).map Prod.fst = l.map Prod.fst := by
  rw [List.map_map]
  rfl

/-- C3: the Two-Phase Host Tester is total over its input Endpoints: the
output's key list is a permutation of the input's key list (with the
input's dict keys duplicate-free, every Endpoint gets exactly one Quality
Record — none missing, duplicated or added), and every produced record
has trialsUsed ≥ 1. -/
theorem c3_total_function_trials_pos (probe : String → Verdict)
    (m : List (String × List String)) (hnd : (m.map Prod.fst).Nodup) :
    ((test_hosts_two_phase probe m).map Prod.fst).Perm (m.map Prod.fst) ∧
    (∀ p ∈ test_hosts_two_phase probe m, 1 ≤ p.2.trials) := by
  have hndh : ((mk_host_data m).map Prod.fst).Nodup := by
    rw [keys_mk_host_data]; exact hnd
  constructor
  · simp only [test_hosts_two_phase]
    rw [phase1_alive_eq, no_fallback_records_eq probe _ hndh, phase2_records_eq probe _ hndh]
    have e1 : List.filter
          (fun p => (fallback_candidates p.2).isEmpty && !(p1cond probe p)) (mk_host_data m)
        = List.filter (fun p => (fallback_candidates p.2).isEmpty)
            (List.filter (fun p => !(p1cond probe p)) (mk_host_data m)) :=
      (List.filter_filter _ _).symm
    have e2 : List.filter
          (fun p => !((fallback_candidates p.2).isEmpty) && !(p1cond probe p)) (mk_host_data m)
        = List.filter (fun p => !((fallback_candidates p.2).isEmpty))
            (List.filter (fun p => !(p1cond probe p)) (mk_host_data m)) :=
      (List.filter_filter _ _).symm
    rw [List.map_append, List.map_append, keys_keyMap, keys_keyMap, keys_keyMap, e1, e2]
    rw [← List.map_append, ← List.map_append, List.append_assoc]
    have hperm : (List.filter (p1cond probe) (mk_host_data m) ++
        (List.filter (fun p => (fallback_candidates p.2).isEmpty)
            (List.filter (fun p => !(p1cond probe p)) (mk_host_data m)) ++
          List.filter (fun p => !((fallback_candidates p.2).isEmpty))
            (List.filter (fun p => !(p1cond probe p)) (mk_host_data m)))).Perm
        (mk_host_data m) :=
      List.Perm.trans
        (List.Perm.append_left _
          (List.filter_append_perm _ (List.filter (fun p => !(p1cond probe p)) (mk_host_data m))))
        (List.filter_append_perm _ (mk_host_data m))
    have hmapped := List.Perm.map Prod.fst hperm
    rw [keys_mk_host_data] at hmapped
    exact hmapped
  · intro p hp
    simp only [test_hosts_two_phase] at hp
    rw [phase1_alive_eq, no_fallback_records_eq probe _ hndh, phase2_records_eq probe _ hndh] at hp
    rcases List.mem_append.mp hp with hp | hp
    · rcases List.mem_append.mp hp with hp | hp
      · rcases List.mem_map.mp hp with ⟨q, hq, hqe⟩
        rw [← hqe]
        cases hrep : q.2.rep <;> simp [phase1_record, hrep]
      · rcases List.mem_map.mp hp with ⟨q, hq, hqe⟩
        rw [← hqe]
    · rcases List.mem_map.mp hp with ⟨q, hq, hqe⟩
      rw [← hqe]
      simp only [fallback_record]
      by_cases hs : (fallback_test probe q.1 ((fallback_candidates q.2).take 3)).2.1 <;>
        simp [hs]

/-- C3 witness: a two-endpoint input (one of them with an empty URL list)
yields exactly one record per endpoint, each with trials ≥ 1. -/
theorem c3_witness :
    ((test_hosts_two_phase deadProbe [("a:80", ["http://a/1"]), ("b:80", [])]).map
        Prod.fst).Perm ([("a:80", ["http://a/1"]), ("b:80", [])].map Prod.fst) ∧
    (∀ p ∈ test_hosts_two_phase deadProbe [("a:80", ["http://a/1"]), ("b:80", [])],
      1 ≤ p.2.trials) :=
  c3_total_function_trials_pos deadProbe [("a:80", ["http://a/1"]), ("b:80", [])] (by decide)

/-! ## Claim C8 -/

/-- C8: an Endpoint whose (truthy) representative probe fails in phase 1
and which owns no alternate candidates is immediately recorded
alive=false with classification `no_fallback` (the record field the code
uses for the spec's reason) and trialsUsed=1; it is never put on the
retry list, so no phase-2 probe is issued for it, and the only probe the
tester attributes to it is the single phase-1 representative probe. -/
theorem c8_no_fallback_immediate (probe : String → Verdict)
    (m : List (String × List String)) (hnd : (m.map Prod.fst).Nodup)
    (h : String) (urls : List String) (hm : (h, urls) ∈ m)
    (r : String) (hr : rep_url urls = some r) (hr' : r ≠ "")
    (hfail : (probe r).alive = false)
    (hnoalt : fallback_candidates ⟨urls, rep_url urls⟩ = []) :
    (test_hosts_two_phase probe m).lookup h =
      some ⟨false, 999, "no_fallback", some r, 1⟩ ∧
    (∀ e ∈ hosts_to_retry probe (mk_host_data m), e.1 ≠ h) ∧
    (∀ q ∈ tester_probes probe m, q.1 = h → q = (h, r)) := by
  have hndh : ((mk_host_data m).map Prod.fst).Nodup := by
    rw [keys_mk_host_data]; exact hnd
  have hpmem : ((h, ⟨urls, rep_url urls⟩) : String × HostData) ∈ mk_host_data m :=
    List.mem_map.mpr ⟨(h, urls), hm, rfl⟩
  have hp1 : p1cond probe ((h, ⟨urls, rep_url urls⟩) : String × HostData) = false := by
    simp only [p1cond, hr]
    simp [hfail]
  have hretry : ∀ e ∈ hosts_to_retry probe (mk_host_data m), e.1 ≠ h := by
    intro e he heq
    unfold hosts_to_retry at he
    rcases List.mem_filterMap.mp he with ⟨q, hq, hbody⟩
    have hqhd : q ∈ mk_host_data m := List.mem_filter.mp (by
      rw [unresolved_eq probe _ hndh] at hq
      exact hq) |>.1
    by_cases hemp : (fallback_candidates q.2).isEmpty
    · rw [if_pos hemp] at hbody; cases hbody
    · rw [if_neg hemp] at hbody
      have hpair : (q.1, List.take 3 (fallback_candidates q.2)) = e := by
        injection hbody
      have hkey : e.1 = q.1 := by rw [← hpair]
      have hqeq : q = ((h, ⟨urls, rep_url urls⟩) : String × HostData) :=
        eq_of_mem_nodupKeys hndh hqhd hpmem (by rw [← hkey, heq])
      rw [hqeq] at hemp
      simp [hnoalt] at hemp
  refine ⟨?_, hretry, ?_⟩
  · have hlook := tester_lookup probe m hnd hpmem
    rw [hp1] at hlook
    rw [hlook, hr] at *
    rw [hr] at hnoalt
    simp [hnoalt]
  · intro q hq hkey
    unfold tester_probes at hq
    rcases List.mem_append.mp hq with hq | hq
    · unfold phase1_probes at hq
      rcases List.mem_filterMap.mp hq with ⟨w, hw, hbody⟩
      cases hrep : w.2.rep with
      | none => rw [hrep] at hbody; cases hbody
      | some r2 =>
        rw [hrep] at hbody
        by_cases hr2 : r2 = ""
        · simp [hr2] at hbody
        · simp [hr2] at hbody
          have hw1 : w.1 = h := by rw [← hbody] at hkey; exact hkey
          have hweq : w = ((h, ⟨urls, rep_url urls⟩) : String × HostData) :=
            eq_of_mem_nodupKeys hndh hw hpmem hw1
          have hr2r : rep_url urls = some r2 := by rw [hweq] at hrep; exact hrep
          rw [hr] at hr2r
          injection hr2r with hr2r
          rw [← hbody, hw1, ← hr2r]
    · unfold phase2_probes at hq
      rcases List.mem_flatMap.mp hq with ⟨e, he, hmem⟩
      rcases List.mem_map.mp hmem with ⟨u, hu, hue⟩
      exfalso
      apply hretry e he
      rw [← hkey, ← hue]

/-- C8 witness: a single-URL endpoint whose representative fails gets the
immediate no_fallback record and only its one phase-1 probe. -/
theorem c8_witness :
    (test_hosts_two_phase deadProbe [("h:80", ["http://h/r"])]).lookup "h:80" =
      some ⟨false, 999, "no_fallback", some "http://h/r", 1⟩ ∧
    (∀ e ∈ hosts_to_retry deadProbe (mk_host_data [("h:80", ["http://h/r"])]), e.1 ≠ "h:80") ∧
    (∀ q ∈ tester_probes deadProbe [("h:80", ["http://h/r"])],
      q.1 = "h:80" → q = ("h:80", "http://h/r")) :=
  c8_no_fallback_immediate deadProbe [("h:80", ["http://h/r"])] (by decide)
    "h:80" ["http://h/r"] (by decide) "http://h/r" (by decide) (by decide) rfl (by decide)

/-! ## Claim C1 -/

/-- C1 counterexample: host g:80 owns one alternate and it fails its
probe.  The claim permits only the per-alternate probes (here: one
invocation, matching the one alternate tried), but the fallback trace
shows two invocations on that alternate — `fallback_test` re-probes
`candidates[-1]` once more after the loop (src line 751) — while the
reported trial count stays 1 (so the tester records trials = 2). -/
theorem c1_counterexample :
    (fallback_testT deadProbe "g:80" ["http://g/b"]).2 =
      ["http://g/b", "http://g/b"] ∧
    (fallback_test deadProbe "g:80" ["http://g/b"]).2.2.2 = 1 ∧
    (test_hosts_two_phase deadProbe [("g:80", ["http://g/r", "http://g/b"])]).lookup "g:80" =
      some ⟨false, 5, "dead", some "http://g/r", 2⟩ ∧
    ((fallback_testT deadProbe "g:80" ["http://g/b"]).2.length = 1 → False) :=
  ⟨by decide, by decide, by decide, by decide⟩

/-- C1 amended: when all selected alternates of a phase-2 endpoint fail,
the code issues exactly ONE additional probe beyond the per-alternate
probes — a re-probe of the last alternate (trace = alternates ++ [last
alternate]) — and the recorded Quality Record carries that re-probe's
verdict (equal to the last alternate's verdict, the prober being
deterministic per URL within the run), with alive=false, the original
representative kept, and trialsUsed = 1 + number of alternates tried (the
re-probe is not counted in trialsUsed). -/
theorem c1_amended_last_alternate_reprobed (probe : String → Verdict)
    (m : List (String × List String)) (hnd : (m.map Prod.fst).Nodup)
    (h : String) (urls : List String) (hm : (h, urls) ∈ m)
    (hp1 : p1cond probe ((h, ⟨urls, rep_url urls⟩) : String × HostData) = false)
    (sel : List String)
    (hsel : sel = (fallback_candidates ⟨urls, rep_url urls⟩).take 3)
    (lastU : String) (hlast : sel.getLast? = some lastU)
    (hfail : ∀ u ∈ sel, (probe u).alive = false) :
    (test_hosts_two_phase probe m).lookup h =
      some ⟨false, (probe lastU).latency, (probe lastU).type, rep_url urls, 1 + sel.length⟩ ∧
    (fallback_testT probe h sel).2 = sel ++ [lastU] := by
  have hpmem : ((h, ⟨urls, rep_url urls⟩) : String × HostData) ∈ mk_host_data m :=
    List.mem_map.mpr ⟨(h, urls), hm, rfl⟩
  have hne : sel ≠ [] := by
    intro hcon
    rw [hcon] at hlast
    cases hlast
  have hcne : (fallback_candidates (⟨urls, rep_url urls⟩ : HostData)).isEmpty = false := by
    rcases hemp : (fallback_candidates (⟨urls, rep_url urls⟩ : HostData)).isEmpty with _ | _
    · rfl
    · exfalso
      apply hne
      rw [hsel, List.isEmpty_iff.mp hemp]
      rfl
  have hfb := fallback_testT_all_fail probe h sel lastU hlast hfail
  constructor
  · have hlook := tester_lookup probe m hnd hpmem
    rw [hp1] at hlook
    simp only [Bool.false_eq_true, if_false, hcne] at hlook
    rw [hlook]
    simp only [fallback_record, fallback_test, ← hsel, hfb]
    simp
  · rw [hfb]

/-- C1 amended witness: one failing alternate, probed twice; the tester
records trials 2 and keeps the phase-1 representative. -/
theorem c1_amended_witness :
    (test_hosts_two_phase deadProbe [("g2:80", ["http://g2/r", "http://g2/b"])]).lookup "g2:80" =
      some ⟨false, 5, "dead", some "http://g2/r", 2⟩ ∧
    (fallback_testT deadProbe "g2:80" ["http://g2/b"]).2 =
      ["http://g2/b", "http://g2/b"] :=
  c1_amended_last_alternate_reprobed deadProbe [("g2:80", ["http://g2/r", "http://g2/b"])]
    (by decide) "g2:80" ["http://g2/r", "http://g2/b"] (by decide) (by decide)
    ["http://g2/b"] (by decide) "http://g2/b" (by decide) (by decide)

/-! ## Claim C2 -/

/-- C2 counterexample: host h:80 enters phase 2 with the maximal 3
selected alternates, all failing.  Only 3 distinct alternate URLs are
selected, but 4 probe invocations are performed on them (the last
alternate is probed twice), contradicting "at most 3 probe
invocations". -/
theorem c2_counterexample :
    hosts_to_retry deadProbe
        (mk_host_data [("h:80", ["http://h/r", "http://h/b", "http://h/c", "http://h/d"])]) =
      [("h:80", ["http://h/b", "http://h/c", "http://h/d"])] ∧
    (fallback_testT deadProbe "h:80" ["http://h/b", "http://h/c", "http://h/d"]).2 =
      ["http://h/b", "http://h/c", "http://h/d", "http://h/d"] ∧
    ((fallback_testT deadProbe "h:80" ["http://h/b", "http://h/c", "http://h/d"]).2.length ≤ 3 →
      False) :=
  ⟨by decide, by decide, by decide⟩

/-- C2 amended: for every Endpoint entering phase 2 (every entry of the
retry list), at most 3 alternates (excluding the representative) are
selected, every probed URL is one of those selected alternates, and at
most 4 probe invocations are performed on them before the record is
produced — at most one per selected alternate plus at most one re-probe
of the last alternate. -/
theorem c2_amended_fallback_probe_bound (probe : String → Verdict)
    (m : List (String × List String)) (e : String × List String)
    (he : e ∈ hosts_to_retry probe (mk_host_data m)) :
    e.2.length ≤ 3 ∧
    (∀ u ∈ (fallback_testT probe e.1 e.2).2, u ∈ e.2) ∧
    (fallback_testT probe e.1 e.2).2.length ≤ e.2.length + 1 ∧
    (fallback_testT probe e.1 e.2).2.length ≤ 4 := by
  have hlen : e.2.length ≤ 3 := by
    unfold hosts_to_retry at he
    rcases List.mem_filterMap.mp he with ⟨q, hq, hbody⟩
    by_cases hemp : (fallback_candidates q.2).isEmpty
    · rw [if_pos hemp] at hbody; cases hbody
    · rw [if_neg hemp] at hbody
      injection hbody with hbody
      rw [← hbody]
      simp
  have htr := fallback_testT_trace_length probe e.1 e.2
  exact ⟨hlen, fallback_testT_trace_subset probe e.1 e.2, htr, le_trans htr (by omega)⟩

/-- C2 amended witness: the maximal case — 3 selected alternates, 4 probe
invocations, all probed URLs among the alternates. -/
theorem c2_amended_witness :
    ("h2:80", ["http://h2/b", "http://h2/c", "http://h2/d"]).2.length ≤ 3 ∧
    (∀ u ∈ (fallback_testT deadProbe ("h2:80", ["http://h2/b", "http://h2/c", "http://h2/d"]).1
        ("h2:80", ["http://h2/b", "http://h2/c", "http://h2/d"]).2).2,
      u ∈ ("h2:80", ["http://h2/b", "http://h2/c", "http://h2/d"]).2) ∧
    (fallback_testT deadProbe ("h2:80", ["http://h2/b", "http://h2/c", "http://h2/d"]).1
        ("h2:80", ["http://h2/b", "http://h2/c", "http://h2/d"]).2).2.length ≤
      ("h2:80", ["http://h2/b", "http://h2/c", "http://h2/d"]).2.length + 1 ∧
    (fallback_testT deadProbe ("h2:80", ["http://h2/b", "http://h2/c", "http://h2/d"]).1
        ("h2:80", ["http://h2/b", "http://h2/c", "http://h2/d"]).2).2.length ≤ 4 :=
  c2_amended_fallback_probe_bound deadProbe
    [("h2:80", ["http://h2/r", "http://h2/b", "http://h2/c", "http://h2/d"])]
    ("h2:80", ["http://h2/b", "http://h2/c", "http://h2/d"]) (by decide)

/-! ## Claim C10 -/

/-- C10: in phase 2, when the first alive alternate is found, the
Endpoint's record is alive with representative_url set to that succeeding
alternate (replacing the phase-1 representative); when every selected
alternate fails, the record keeps the original phase-1 representative as
representative_url, and that representative is none of the failed
alternates (they exclude it by construction). -/
theorem c10_representative_url_semantics (probe : String → Verdict)
    (m : List (String × List String)) (hnd : (m.map Prod.fst).Nodup)
    (h : String) (urls : List String) (hm : (h, urls) ∈ m)
    (hp1 : p1cond probe ((h, ⟨urls, rep_url urls⟩) : String × HostData) = false)
    (sel : List String)
    (hsel : sel = (fallback_candidates ⟨urls, rep_url urls⟩).take 3) :
    (∀ pre u post, sel = pre ++ u :: post → (∀ x ∈ pre, (probe x).alive = false) →
      (probe u).alive = true →
      (test_hosts_two_phase probe m).lookup h =
        some ⟨true, (probe u).latency, (probe u).type, some u, 1 + (pre.length + 1)⟩) ∧
    (∀ lastU, sel.getLast? = some lastU → (∀ x ∈ sel, (probe x).alive = false) →
      ∃ rec, (test_hosts_two_phase probe m).lookup h = some rec ∧
        rec.representative_url = rep_url urls ∧
        (∀ u ∈ sel, rep_url urls ≠ some u)) := by
  have hpmem : ((h, ⟨urls, rep_url urls⟩) : String × HostData) ∈ mk_host_data m :=
    List.mem_map.mpr ⟨(h, urls), hm, rfl⟩
  have hnotrep : ∀ u ∈ sel, rep_url urls ≠ some u := by
    intro u hu
    have humem : u ∈ fallback_candidates (⟨urls, rep_url urls⟩ : HostData) := by
      rw [hsel] at hu
      exact List.take_subset 3 _ hu
    have := (List.mem_filter.mp humem).2
    simpa using this
  have hcne : sel ≠ [] →
      (fallback_candidates (⟨urls, rep_url urls⟩ : HostData)).isEmpty = false := by
    intro hne
    rcases hemp : (fallback_candidates (⟨urls, rep_url urls⟩ : HostData)).isEmpty with _ | _
    · rfl
    · exfalso
      apply hne
      rw [hsel, List.isEmpty_iff.mp hemp]
      rfl
  constructor
  · intro pre u post hdecomp hpre hu
    have hne : sel ≠ [] := by rw [hdecomp]; simp
    have hlook := tester_lookup probe m hnd hpmem
    rw [hp1] at hlook
    simp only [Bool.false_eq_true, if_false, hcne hne] at hlook
    rw [hlook]
    have hfb := fallback_testT_first_success probe h pre u post hpre hu
    rw [← hdecomp] at hfb
    simp only [fallback_record, fallback_test, ← hsel, hfb]
    simp
  · intro lastU hlast hfail
    have hne : sel ≠ [] := by
      intro hcon
      rw [hcon] at hlast
      cases hlast
    have hlook := tester_lookup probe m hnd hpmem
    rw [hp1] at hlook
    simp only [Bool.false_eq_true, if_false, hcne hne] at hlook
    rw [hlook]
    have hfb := fallback_testT_all_fail probe h sel lastU hlast hfail
    refine ⟨_, rfl, ?_, hnotrep⟩
    simp only [fallback_record, fallback_test, ← hsel, hfb]
    simp

/-- C10 witness: the second of two alternates succeeds, so the record is
alive with that alternate as representative_url and trials 3. -/
theorem c10_witness :
    (test_hosts_two_phase (aliveOn ["http://w/c"])
        [("w:80", ["http://w/r", "http://w/b", "http://w/c"])]).lookup "w:80" =
      some ⟨true, 2, "hls", some "http://w/c", 3⟩ :=
  (c10_representative_url_semantics (aliveOn ["http://w/c"])
      [("w:80", ["http://w/r", "http://w/b", "http://w/c"])] (by decide)
      "w:80" ["http://w/r", "http://w/b", "http://w/c"] (by decide) (by decide)
      ["http://w/b", "http://w/c"] (by decide)).1
    ["http://w/b"] "http://w/c" [] (by decide) (by decide) (by decide)

/-! ## Claim C6 -/

/-- Inversion of the candidate filter: a surviving candidate carries a
resolvable truthy host whose quality record exists, is alive, and whose
recorded latency the candidate copied. -/
theorem build_candidates_inv (url_to_host : List (String × String))
    (host_quality : List (String × QualityRecord)) (items : List ChanItem)
    {c : Candidate} (hc : c ∈ build_candidates url_to_host host_quality items) :
    ∃ item ∈ items, c.url = item.url ∧
      ∃ host r, url_to_host.lookup item.url = some host ∧ host ≠ "" ∧
        host_quality.lookup host = some r ∧ r.alive = true ∧ c.latency = r.latency := by
  rcases List.mem_filterMap.mp hc with ⟨item, hitem, hbody⟩
  cases hlook : url_to_host.lookup item.url with
  | none => rw [hlook] at hbody; cases hbody
  | some host =>
    rw [hlook] at hbody
    by_cases hne : host = ""
    · simp [hne] at hbody
    · cases hq : host_quality.lookup host with
      | none => simp [hne, hq] at hbody
      | some r =>
        by_cases halive : r.alive
        · simp [hne, hq, halive] at hbody
          refine ⟨item, hitem, ?_, host, r, hlook, hne, hq, halive, ?_⟩
          · rw [← hbody]
          · rw [← hbody]
        · simp [hne, hq, halive] at hbody

/-- C6: the Channel Candidate Resolver never selects a Candidate URL
whose owning Endpoint is missing from the quality map or recorded
alive=false: every published playlist entry's URL resolves to a truthy
host whose quality record exists and has alive=true. -/
theorem c6_no_dead_endpoint_selected (tss : String → Bool)
    (grouped : List (String × List ChanItem)) (url_to_host : List (String × String))
    (host_quality : List (String × QualityRecord)) (fc : FinalChannel)
    (hfc : fc ∈ build_final_playlist tss grouped url_to_host host_quality) :
    ∃ host r, url_to_host.lookup fc.url = some host ∧ host ≠ "" ∧
      host_quality.lookup host = some r ∧ r.alive = true := by
  unfold build_final_playlist at hfc
  rcases List.mem_filterMap.mp hfc with ⟨g, hg, hsel⟩
  cases hsel0 : (select_candidateT tss g.2).1 with
  | none => rw [hsel0] at hsel; cases hsel
  | some cand =>
    rw [hsel0] at hsel
    injection hsel with hsel
    have hfind : g.2.find? (fun c => tss c.url) = some cand := by
      rw [← select_candidateT_eq_find]
      exact hsel0
    have hcand : cand ∈ g.2 := List.mem_of_find?_eq_some hfind
    unfold channel_to_candidates at hg
    rcases List.mem_filterMap.mp hg with ⟨ch, hch, hbody⟩
    by_cases hemp : (build_candidates url_to_host host_quality ch.2).isEmpty
    · rw [if_pos hemp] at hbody; cases hbody
    · rw [if_neg hemp] at hbody
      injection hbody with hbody
      have hcand2 : cand ∈ build_candidates url_to_host host_quality ch.2 := by
        apply (List.perm_insertionSort latLeP (build_candidates url_to_host host_quality ch.2)).mem_iff.mp
        have hg2 : g.2 = List.insertionSort latLeP (build_candidates url_to_host host_quality ch.2) := by
          rw [← hbody]
        rw [← hg2]
        exact hcand
      rcases build_candidates_inv url_to_host host_quality ch.2 hcand2 with
        ⟨item, hitem, hurl, host, r, hlook, hne, hq, halive, hlat⟩
      refine ⟨host, r, ?_, hne, hq, halive⟩
      have hfcurl : fc.url = cand.url := by rw [← hsel]
      rw [hfcurl, hurl]
      exact hlook

/-- C6 witness: the resolved channel's published URL belongs to an alive
endpoint of the quality map. -/
theorem c6_witness :
    ∃ host r,
      wU2h.lookup (FinalChannel.mk "CCTV1" "CCTV-1" "http://a/1.m3u8").url = some host ∧
      host ≠ "" ∧ wHq.lookup host = some r ∧ r.alive = true :=
  c6_no_dead_endpoint_selected tssGood wGrouped wU2h wHq
    (FinalChannel.mk "CCTV1" "CCTV-1" "http://a/1.m3u8") (by decide)

/-! ## Claim C7 -/

/-- The resolver's per-channel table keeps a subset of the grouped
channel keys, in order. -/
theorem keys_channel_to_candidates_sublist (grouped : List (String × List ChanItem))
    (url_to_host : List (String × String))
    (host_quality : List (String × QualityRecord)) :
    ((channel_to_candidates grouped url_to_host host_quality).map Prod.fst).Sublist
      (grouped.map Prod.fst) := by
  induction grouped with
  | nil => simp [channel_to_candidates]
  | cons g rest ih =>
    by_cases hemp : (build_candidates url_to_host host_quality g.2).isEmpty
    · simp only [channel_to_candidates, List.filterMap_cons, hemp, if_true, List.map_cons]
      exact List.Sublist.cons _ ih
    · simp only [channel_to_candidates, List.filterMap_cons, hemp, if_false, List.map_cons]
      exact List.Sublist.cons₂ _ ih

/-- C7: each channel's surviving candidate list is sorted ascending by
the owning Endpoint's recorded latency; the confirmatory walk probes the
candidates in that order and stops at the first passing one, issuing no
probe to any later candidate; and if every candidate fails, the channel
is absent from the final playlist. -/
theorem c7_latency_order_first_pass (tss : String → Bool)
    (grouped : List (String × List ChanItem)) (url_to_host : List (String × String))
    (host_quality : List (String × QualityRecord))
    (hnd : (grouped.map Prod.fst).Nodup)
    (name : String) (cands : List Candidate)
    (hmem : (name, cands) ∈ channel_to_candidates grouped url_to_host host_quality) :
    cands.Pairwise latLeP ∧
    (∀ pre c post, cands = pre ++ c :: post → (∀ x ∈ pre, tss x.url = false) →
      tss c.url = true →
      select_candidateT tss cands = (some c, pre.map (fun x => x.url) ++ [c.url])) ∧
    ((∀ x ∈ cands, tss x.url = false) →
      name ∉ (build_final_playlist tss grouped url_to_host host_quality).map
        (fun fc => fc.channel)) := by
  refine ⟨?_, ?_, ?_⟩
  · unfold channel_to_candidates at hmem
    rcases List.mem_filterMap.mp hmem with ⟨ch, hch, hbody⟩
    by_cases hemp : (build_candidates url_to_host host_quality ch.2).isEmpty
    · rw [if_pos hemp] at hbody; cases hbody
    · rw [if_neg hemp] at hbody
      injection hbody with hbody
      have hcands : cands =
          List.insertionSort latLeP (build_candidates url_to_host host_quality ch.2) := by
        have := congrArg Prod.snd hbody
        simpa using this.symm
      rw [hcands]
      exact List.sorted_insertionSort latLeP _
  · intro pre c post hdecomp hpre hc
    rw [hdecomp]
    exact select_candidateT_first_success tss pre c post hpre hc
  · intro hfailall hin
    rcases List.mem_map.mp hin with ⟨fc, hfc, hfcname⟩
    unfold build_final_playlist at hfc
    rcases List.mem_filterMap.mp hfc with ⟨g, hg, hbody⟩
    cases hsel : (select_candidateT tss g.2).1 with
    | none => rw [hsel] at hbody; cases hbody
    | some cand =>
      rw [hsel] at hbody
      injection hbody with hbody
      have hgname : g.1 = name := by rw [← hfcname, ← hbody]
      have hndc : ((channel_to_candidates grouped url_to_host host_quality).map
          Prod.fst).Nodup :=
        (keys_channel_to_candidates_sublist grouped url_to_host host_quality).nodup hnd
      have hgeq : g = (name, cands) := eq_of_mem_nodupKeys hndc hg hmem hgname
      have hnone := select_candidateT_all_fail tss cands hfailall
      rw [hgeq] at hsel
      simp only [hnone] at hsel
      cases hsel

/-- C7 witness: of two candidates sorted 2 then 7 by latency, the first
fails the confirmatory probe and the second passes; the walk probes both
in order and selects the second. -/
theorem c7_witness :
    select_candidateT tssGood
        [⟨"http://a/bad.m3u8", 2, "CCTV-1 bad"⟩, ⟨"http://a/1.m3u8", 7, "CCTV-1"⟩] =
      (some ⟨"http://a/1.m3u8", 7, "CCTV-1"⟩,
        ["http://a/bad.m3u8", "http://a/1.m3u8"]) :=
  (c7_latency_order_first_pass tssGood wGrouped wU2h wHq (by decide) "CCTV1"
      [⟨"http://a/bad.m3u8", 2, "CCTV-1 bad"⟩, ⟨"http://a/1.m3u8", 7, "CCTV-1"⟩]
      (by decide)).2.1
    [⟨"http://a/bad.m3u8", 2, "CCTV-1 bad"⟩] ⟨"http://a/1.m3u8", 7, "CCTV-1"⟩ []
    (by decide) (by decide) (by decide)
